import Mathlib

/-!
Shallow embedding of mtourj/react-native-validated-form.

Source files embedded:
  * src/hooks/useBufferedState.ts  — the debounced ("buffered") state cell
  * src/ValidatedForm.tsx          — the field registry, validation aggregation
                                     and scroll-to-invalid-field coordinator
  * src/unnamed/part_000 (utils)   — the `isEmpty` predicate

Conventions of the embedding:
  * JS numbers that hold layout offsets / margins are modelled as `Int`.
  * The field callbacks `validateCallback : () => boolean` and
    `measureYOffset : () => Promise<number>` are modelled as Lean functions
    `Unit → Bool` and `Unit → Int` (the promise's resolved value); the
    asynchronous resolution of `measureYOffset` shows up as separate
    `updateFieldOffsetY` events, exactly as in the source, and is not part of
    the synchronous `validateForm` result.
  * A JS object used as a string-keyed map (`ValidatedFormFields`) is an
    association list `List (String × _)` in insertion order: JS objects keep
    string keys in insertion order and keys are unique, `obj[k]` is
    `List.lookup`, `delete obj[k]` is a filter, and `{...obj, [k]: v}`
    replaces in place when `k` is present and appends otherwise.
  * React's committed state vs. the hook's buffer ref is modelled explicitly
    by `BufferedStateCell` below; the registry callbacks close over the
    committed state (`validatorState`) and write through `setState`.
-/

/-- One per-field record (`ValidatedFieldState` in src/ValidatedForm.tsx):
last-computed validity, last-measured vertical offset, and the two closures
supplied by the field owner. -/
structure ValidatedFieldState where
  valid : Bool
  yOffset : Int
  measureYOffset : Unit → Int
  validateCallback : Unit → Bool

/-- The whole form state (`ValidatorState` in src/ValidatedForm.tsx). -/
structure ValidatorState where
  ready : Bool
  fields : List (String × ValidatedFieldState)

/-- The `DEFAULT_VALIDATOR_STATE` constant from src/ValidatedForm.tsx. -/
def DEFAULT_VALIDATOR_STATE : ValidatorState :=
  { ready := false, fields := [] }

/-! ## The buffered state cell (src/hooks/useBufferedState.ts)

`useBufferedState` keeps three pieces of mutable state: the committed React
state (`state`), the buffer ref (`stateBufferRef`), and the pending commit
timeout (`commitTimeoutRef`).  We model the timeout as a `Bool` (is a commit
pending?); real time is abstracted: a burst of writes with no timer expiry in
between is a `List` of `setState` calls followed by one `commitTimeoutFire`. -/

/-- The argument accepted by the hook's `setState`: either a plain new value
or an updater function over the latest buffered value. -/
inductive SetStateAction (V : Type) where
  | value (v : V)
  | updater (f : V → V)

/-- Apply a `SetStateAction` the way the hook's `setState` does: an updater is
applied to the latest buffered value, a plain value replaces it. -/
def applySetStateAction {V : Type} : SetStateAction V → V → V
  | .value v, _ => v
  | .updater f, b => f b

/-- The mutable state owned by one `useBufferedState` instance. -/
structure BufferedStateCell (V : Type) where
  /-- the committed, externally observable React state -/
  state : V
  /-- the buffer, `stateBufferRef.current` -/
  stateBuffer : V
  /-- whether `commitTimeoutRef.current` holds a live timeout -/
  commitTimeoutPending : Bool

/-- The hook's `setState`: store the new value (or the updater applied to the
buffer) into the buffer ref, then `commitStateFromBuffer` clears any pending
timeout and starts a fresh one.  The committed state is untouched. -/
def setState {V : Type} (setStateAction : SetStateAction V)
    (c : BufferedStateCell V) : BufferedStateCell V :=
  { c with
    stateBuffer := applySetStateAction setStateAction c.stateBuffer
    commitTimeoutPending := true }

/-- The commit timeout firing after a quiet period: `_setState` copies the
buffer into the committed state and the timeout ref is cleared.  If no timeout
is pending nothing happens. -/
def commitTimeoutFire {V : Type} (c : BufferedStateCell V) : BufferedStateCell V :=
  if c.commitTimeoutPending then
    { c with state := c.stateBuffer, commitTimeoutPending := false }
  else c

/-- A burst of `setState` calls, each arriving before the delay elapses (so no
commit fires in between). -/
def setStateBurst {V : Type} (ws : List (SetStateAction V))
    (c : BufferedStateCell V) : BufferedStateCell V :=
  ws.foldl (fun c a => setState a c) c

/-! ## Registry operations (src/ValidatedForm.tsx) -/

/-- JS `{...fields, [name]: v}` on a string-keyed object: if `name` is already
a key the value is replaced at its existing position, otherwise the new key is
appended in insertion order. -/
def objInsert (name : String) (v : ValidatedFieldState)
    (fields : List (String × ValidatedFieldState)) :
    List (String × ValidatedFieldState) :=
  if fields.any (fun p => p.1 = name) then
    fields.map (fun p => if p.1 = name then (p.1, v) else p)
  else fields ++ [(name, v)]

/-- JS `fields[name].<field> = x` on the (unique) record stored under `name`:
update the record at key `name`, leave everything else alone. -/
def assignFieldRecord (name : String) (g : ValidatedFieldState → ValidatedFieldState)
    (fields : List (String × ValidatedFieldState)) :
    List (String × ValidatedFieldState) :=
  fields.map (fun p => if p.1 = name then (p.1, g p.2) else p)

/-- The body of `validateForm`'s `forEach` loop over `Object.keys(newState.fields)`:
re-invoke the field's predicate; fold it into the running `isFormValid`
conjunction; if the stored `valid` flag is unchanged skip the field, otherwise
write the new flag.  Modelled as structural recursion over the entries in
insertion order (JS object keys are unique, so iterating keys and looking each
one up visits exactly the entries). -/
def validateFieldsPass :
    List (String × ValidatedFieldState) →
    Bool × List (String × ValidatedFieldState)
  | [] => (true, [])
  | p :: rest =>
    let isValid := p.2.validateCallback ()
    let p' := if isValid = p.2.valid then p else (p.1, { p.2 with valid := isValid })
    let r := validateFieldsPass rest
    (isValid && r.1, p' :: r.2)

/-- The `validateForm` callback (src/ValidatedForm.tsx lines 241–269), as a function of the
committed state it closes over: fails closed when `ready` is false; otherwise
re-invokes every field's predicate, returns the aggregate and the new state it
writes back.  (The fire-and-forget `measureYOffsets()` call resolves later as
separate `updateFieldOffsetY` events and does not affect this result.) -/
def validateForm (s : ValidatorState) : Bool × ValidatorState :=
  if s.ready = false then (false, s)
  else
    let r := validateFieldsPass s.fields
    (r.1, { s with fields := r.2 })

/-! ### First lemmas -/

theorem validateFieldsPass_fst (l : List (String × ValidatedFieldState)) :
    (validateFieldsPass l).1 = l.all (fun p => p.2.validateCallback ()) := by
  induction l with
  | nil => rfl
  | cons p rest ih => simp [validateFieldsPass, ih, List.all_cons]

/-- Claim C1: with `ready = true`, `validateForm` returns `true` iff every
registered field's validation predicate, re-invoked at call time, returns
`true`; any `false` predicate result makes the aggregate `false`. -/
theorem validateForm_true_iff_all_valid (s : ValidatorState) (h : s.ready = true) :
    (validateForm s).1 = true ↔
      ∀ p ∈ s.fields, p.2.validateCallback () = true := by
  simp [validateForm, h, validateFieldsPass_fst, List.all_eq_true]

/-- A concrete two-field form used by several witnesses. -/
def sampleField (v : Bool) (y : Int) : ValidatedFieldState :=
  { valid := v, yOffset := y, measureYOffset := fun _ => y,
    validateCallback := fun _ => v }

def sampleState : ValidatorState :=
  { ready := true
    fields := [("a", sampleField true 300), ("b", sampleField true 100)] }

theorem validateForm_true_iff_all_valid_witness :
    sampleState.ready = true ∧
      ((validateForm sampleState).1 = true ↔
        ∀ p ∈ sampleState.fields, p.2.validateCallback () = true) :=
  ⟨rfl, validateForm_true_iff_all_valid sampleState rfl⟩

/-- Claim C7: whenever `ready` is false, `validateForm` returns `false`,
regardless of the field mapping's contents and of what any predicate would
return. -/
theorem validateForm_not_ready_false (s : ValidatorState) (h : s.ready = false) :
    (validateForm s).1 = false := by
  simp [validateForm, h]

def sampleNotReadyState : ValidatorState :=
  { ready := false
    fields := [("a", sampleField true 300), ("b", sampleField true 100)] }

theorem validateForm_not_ready_false_witness :
    sampleNotReadyState.ready = false ∧
      (validateForm sampleNotReadyState).1 = false :=
  ⟨rfl, validateForm_not_ready_false sampleNotReadyState rfl⟩

/-! ## The registry callbacks acting on the buffered cell

Each callback in `ValidatedForm` closes over `validatorState` — the committed
state of the `useBufferedState` cell — and issues writes through its
`setState`.  So a registry operation is a function
`BufferedStateCell ValidatorState → BufferedStateCell ValidatorState`:
guards read `c.state` (the committed snapshot captured by the closure) while
updaters receive the latest buffered value (`c.stateBuffer`). -/

/-- The cell holding a form's `ValidatorState`. -/
abbrev FormCell := BufferedStateCell ValidatorState

/-- The mount effect: `setValidatorState(prev => ({...prev, ready: true}))`. -/
def initReadyCell (c : FormCell) : FormCell :=
  setState (.updater (fun prevState => { prevState with ready := true })) c

/-- Whether `addField` hits its duplicate guard (and emits `console.warn`):
the guard reads the committed state captured by the closure. -/
def addFieldWarns (name : String) (c : FormCell) : Bool :=
  (List.lookup name c.state.fields).isSome

/-- The `addField` callback (src/ValidatedForm.tsx lines 144–180): if `name` is already in
the committed fields, warn and return without writing; otherwise write an
updater inserting the new record (initial `yOffset` 0) into the buffer. -/
def addFieldCell (name : String) (valid : Bool) (validateCallback : Unit → Bool)
    (mesaureYOffset : Unit → Int) (c : FormCell) : FormCell :=
  if (List.lookup name c.state.fields).isSome then c
  else
    setState (.updater (fun prevState =>
      let newField : ValidatedFieldState :=
        { valid := valid, measureYOffset := mesaureYOffset, yOffset := 0,
          validateCallback := validateCallback }
      { prevState with fields := objInsert name newField prevState.fields })) c

/-- Number of `setValidatorState` calls `addField` performs. -/
def addFieldWriteCount (name : String) (c : FormCell) : Nat :=
  if (List.lookup name c.state.fields).isSome then 0 else 1

/-- The `removeField` callback: unconditionally writes an updater deleting key `name`. -/
def removeFieldCell (name : String) (c : FormCell) : FormCell :=
  setState (.updater (fun prevState =>
    { prevState with fields := prevState.fields.filter (fun p => ¬ p.1 = name) })) c

/-- The `updateFieldOffsetY` callback: unconditionally writes an updater that sets the
offset of the record under `name` if one exists. -/
def updateFieldOffsetYCell (name : String) (yOffset : Int) (c : FormCell) : FormCell :=
  setState (.updater (fun prevState =>
    { prevState with
      fields := assignFieldRecord name (fun f => { f with yOffset := yOffset })
        prevState.fields })) c

/-- Whether `validateField` hits its unknown-field guard (and logs
"Trying to validate non-existing field!"). -/
def validateFieldDiag (name : String) (c : FormCell) : Bool :=
  (List.lookup name c.state.fields).isNone

/-- The `validateField` callback (src/ValidatedForm.tsx lines 195–220): look the field up in
the committed state; bail with a diagnostic if absent; if the re-invoked
predicate agrees with the stored `valid` flag, return without writing;
otherwise write an updater that re-invokes the committed record's predicate and
assigns the result to the buffered record under `name`. -/
def validateFieldCell (name : String) (c : FormCell) : FormCell :=
  match List.lookup name c.state.fields with
  | none => c
  | some field =>
    if field.valid = field.validateCallback () then c
    else
      setState (.updater (fun prevState =>
        let isValid := field.validateCallback ()
        { prevState with
          fields := assignFieldRecord name (fun f => { f with valid := isValid })
            prevState.fields })) c

/-- Number of `setValidatorState` calls `validateField` performs. -/
def validateFieldWriteCount (name : String) (c : FormCell) : Nat :=
  match List.lookup name c.state.fields with
  | none => 0
  | some field => if field.valid = field.validateCallback () then 0 else 1

/-- The `validateForm` callback acting on the cell: everything — the guard,
the predicate pass and the new state — is computed from the committed snapshot
`c.state`; the single write passes `() => newState`, an updater ignoring the
buffered value. -/
def validateFormCell (c : FormCell) : Bool × FormCell :=
  if c.state.ready = false then (false, c)
  else
    let r := validateForm c.state
    (r.1, setState (.updater (fun _ => r.2)) c)

/-- Number of `setValidatorState` calls `validateForm` performs. -/
def validateFormWriteCount (c : FormCell) : Nat :=
  if c.state.ready = false then 0 else 1

/-- The `resetValidations` callback (src/ValidatedForm.tsx lines 271–283): a single write
whose updater forces every buffered field record's `valid` flag to `true`,
touching nothing else and invoking no predicate. -/
def resetValidationsCell (c : FormCell) : FormCell :=
  setState (.updater (fun prevState =>
    { prevState with
      fields := prevState.fields.map (fun p => (p.1, { p.2 with valid := true })) })) c

/-- Number of `setValidatorState` calls `resetValidations` performs. -/
def resetValidationsWriteCount : Nat := 1

/-! ## Claim C4: the buffered cell coalesces bursts of writes -/

/-- Claim C4: for a non-empty burst of writes all landing within the delay
window, the externally observable state never changes while the burst is in
flight, and the commit that fires afterwards commits exactly the fold of the
writes — each updater applied to the latest buffered (not committed) value. -/
theorem useBufferedState_coalesces {V : Type} (ws : List (SetStateAction V))
    (c : BufferedStateCell V) (h : ws ≠ []) :
    (setStateBurst ws c).state = c.state ∧
      (commitTimeoutFire (setStateBurst ws c)).state =
        ws.foldl (fun v a => applySetStateAction a v) c.stateBuffer := by
  have hstate : ∀ (l : List (SetStateAction V)) (d : BufferedStateCell V),
      (setStateBurst l d).state = d.state ∧
        (setStateBurst l d).stateBuffer =
          l.foldl (fun v a => applySetStateAction a v) d.stateBuffer := by
    intro l
    induction l with
    | nil => intro d; exact ⟨rfl, rfl⟩
    | cons a l ih =>
      intro d
      simpa [setStateBurst, setState] using ih (setState a d)
  have hpending : ∀ (l : List (SetStateAction V)) (d : BufferedStateCell V),
      l ≠ [] → (setStateBurst l d).commitTimeoutPending = true := by
    intro l
    induction l with
    | nil => intro d hd; exact absurd rfl hd
    | cons a l ih =>
      intro d _
      rcases List.eq_nil_or_concat l with rfl | _
      · simp [setStateBurst, setState]
      · have : l ≠ [] := by
          rintro rfl
          simp_all
        simpa [setStateBurst] using ih (setState a d) this
  refine ⟨(hstate ws c).1, ?_⟩
  rw [commitTimeoutFire, if_pos (hpending ws c h)]
  exact (hstate ws c).2

/-! ### Lookup lemmas for the association-list field map -/

theorem assignFieldRecord_cons (name : String)
    (g : ValidatedFieldState → ValidatedFieldState)
    (p : String × ValidatedFieldState) (rest : List (String × ValidatedFieldState)) :
    assignFieldRecord name g (p :: rest) =
      (if p.1 = name then (p.1, g p.2) else p) :: assignFieldRecord name g rest := by
  by_cases hp : p.1 = name <;> simp [assignFieldRecord, hp]

theorem lookup_assignFieldRecord (name : String)
    (g : ValidatedFieldState → ValidatedFieldState)
    (l : List (String × ValidatedFieldState)) :
    List.lookup name (assignFieldRecord name g l) = (List.lookup name l).map g := by
  induction l with
  | nil => rfl
  | cons p rest ih =>
    obtain ⟨k, v⟩ := p
    rw [assignFieldRecord_cons]
    by_cases hp : k = name
    · rw [if_pos hp]
      have hb : (name == k) = true := beq_iff_eq.mpr hp.symm
      simp [List.lookup, hb]
    · rw [if_neg hp]
      have hb : (name == k) = false := by
        simpa using fun h : name = k => hp h.symm
      simp [List.lookup, hb, ih]

theorem lookup_assignFieldRecord_ne (other name : String)
    (hne : other ≠ name)
    (g : ValidatedFieldState → ValidatedFieldState)
    (l : List (String × ValidatedFieldState)) :
    List.lookup other (assignFieldRecord name g l) = List.lookup other l := by
  induction l with
  | nil => rfl
  | cons p rest ih =>
    obtain ⟨k, v⟩ := p
    rw [assignFieldRecord_cons]
    by_cases hp : k = name
    · rw [if_pos hp]
      have hb : (other == k) = false := by
        simpa using fun h : other = k => hne (h.trans hp)
      simp [List.lookup, hb, ih]
    · rw [if_neg hp]
      by_cases ho : other = k
      · have hb : (other == k) = true := beq_iff_eq.mpr ho
        simp [List.lookup, hb]
      · have hb : (other == k) = false := by simpa using ho
        simp [List.lookup, hb, ih]

theorem lookup_eq_none_iff (n : String) (l : List (String × ValidatedFieldState)) :
    List.lookup n l = none ↔ ∀ k ∈ l.map Prod.fst, k ≠ n := by
  induction l with
  | nil => simp
  | cons p rest ih =>
    by_cases hp : n = p.1
    · subst hp
      simp [List.lookup]
    · have hp' : (n == p.1) = false := by simpa using hp
      simp [List.lookup, hp', ih]
      intro _
      exact fun h => hp h.symm

/-! ## Claim C3: duplicate registration -/

/-- Claim C3: calling `addField` with a name that is already registered emits
the diagnostic, performs no state write, and leaves the whole cell — and in
particular the existing record with its `valid` flag, `yOffset` and both
closures — exactly as it was; the original registration wins and nothing is
thrown (the operation is a total function). -/
theorem addField_duplicate_unchanged (name : String) (valid : Bool)
    (validateCallback : Unit → Bool) (mesaureYOffset : Unit → Int)
    (c : FormCell) (f : ValidatedFieldState)
    (h : List.lookup name c.state.fields = some f) :
    addFieldWarns name c = true ∧
      addFieldCell name valid validateCallback mesaureYOffset c = c ∧
      addFieldWriteCount name c = 0 ∧
      List.lookup name
        (addFieldCell name valid validateCallback mesaureYOffset c).state.fields =
        some f := by
  refine ⟨?_, ?_, ?_, ?_⟩ <;>
    simp [addFieldWarns, addFieldCell, addFieldWriteCount, h]

/-- A quiescent cell (buffer already committed) over `sampleState`. -/
def sampleCell : FormCell :=
  { state := sampleState, stateBuffer := sampleState, commitTimeoutPending := false }

theorem addField_duplicate_unchanged_witness :
    List.lookup "a" sampleCell.state.fields = some (sampleField true 300) ∧
      (addFieldWarns "a" sampleCell = true ∧
        addFieldCell "a" false (fun _ => false) (fun _ => 7) sampleCell = sampleCell ∧
        addFieldWriteCount "a" sampleCell = 0 ∧
        List.lookup "a"
          (addFieldCell "a" false (fun _ => false) (fun _ => 7) sampleCell).state.fields =
          some (sampleField true 300)) :=
  ⟨rfl, addField_duplicate_unchanged "a" false (fun _ => false) (fun _ => 7)
    sampleCell (sampleField true 300) rfl⟩

/-! ## Claim C5: resetValidations -/

/-- Claim C5: `resetValidations` issues exactly one state write, and once that
write commits, every registered field's `valid` flag is `true` — no validation
predicate is consulted (the updater never invokes one) — while the field names,
offsets and closures, and the `ready` flag, are all untouched. -/
theorem resetValidations_all_valid (c : FormCell) :
    (commitTimeoutFire (resetValidationsCell c)).state =
        { ready := c.stateBuffer.ready
          fields := c.stateBuffer.fields.map
            (fun p => (p.1, { p.2 with valid := true })) } ∧
      resetValidationsWriteCount = 1 ∧
      ∀ p ∈ (commitTimeoutFire (resetValidationsCell c)).state.fields,
        p.2.valid = true := by
  refine ⟨?_, rfl, ?_⟩
  · simp [resetValidationsCell, setState, commitTimeoutFire, applySetStateAction]
  · intro p hp
    simp [resetValidationsCell, setState, commitTimeoutFire, applySetStateAction,
      List.mem_map] at hp
    obtain ⟨q, w, hmem⟩ := hp
    rw [← hmem.2]

/-- A form with two invalid fields and one valid one, committed and quiescent. -/
def sampleInvalidState : ValidatorState :=
  { ready := true
    fields := [("a", sampleField false 300), ("b", sampleField false 100),
               ("c", sampleField true 50)] }

def sampleInvalidCell : FormCell :=
  { state := sampleInvalidState, stateBuffer := sampleInvalidState,
    commitTimeoutPending := false }

theorem resetValidations_all_valid_witness :
    ∀ p ∈ (commitTimeoutFire (resetValidationsCell sampleInvalidCell)).state.fields,
      p.2.valid = true :=
  (resetValidations_all_valid sampleInvalidCell).2.2

/-! ## Claim C6: validateField -/

/-- Claim C6, stated on a quiescent cell (buffer equal to committed state,
i.e. no unrelated write is in flight): `validateField` re-invokes the named
field's predicate; if the result equals the stored `valid` flag it performs no
state write and leaves the cell unchanged; if it differs, the committed record
under that name (after the debounce commit) carries the new result while every
other name is untouched; and for an unregistered name it emits the diagnostic
and changes nothing. -/
theorem validateField_cases (name : String) (c : FormCell)
    (hq : c.stateBuffer = c.state) :
    (List.lookup name c.state.fields = none →
        validateFieldDiag name c = true ∧ validateFieldCell name c = c ∧
        validateFieldWriteCount name c = 0) ∧
      (∀ f, List.lookup name c.state.fields = some f →
        f.valid = f.validateCallback () →
        validateFieldCell name c = c ∧ validateFieldWriteCount name c = 0) ∧
      (∀ f, List.lookup name c.state.fields = some f →
        f.valid ≠ f.validateCallback () →
        validateFieldWriteCount name c = 1 ∧
        List.lookup name (commitTimeoutFire (validateFieldCell name c)).state.fields =
          some { f with valid := f.validateCallback () } ∧
        ∀ other, other ≠ name →
          List.lookup other
              (commitTimeoutFire (validateFieldCell name c)).state.fields =
            List.lookup other c.state.fields) := by
  refine ⟨?_, ?_, ?_⟩
  · intro h
    exact ⟨by simp [validateFieldDiag, h],
      by simp [validateFieldCell, h],
      by simp [validateFieldWriteCount, h]⟩
  · intro f hf heq
    exact ⟨by simp [validateFieldCell, hf, heq],
      by simp [validateFieldWriteCount, hf, heq]⟩
  · intro f hf hne
    refine ⟨by simp [validateFieldWriteCount, hf, hne], ?_, ?_⟩
    · simp only [validateFieldCell, hf, if_neg hne, setState, commitTimeoutFire,
        applySetStateAction, hq]
      simp [lookup_assignFieldRecord, hf]
    · intro other hother
      simp only [validateFieldCell, hf, if_neg hne, setState, commitTimeoutFire,
        applySetStateAction, hq]
      simp [lookup_assignFieldRecord_ne other name hother]

/-- The field "b" of `sampleInvalidCell` has `valid = false` but its predicate
returns `false` as well, so validating it is a no-op; witness uses a cell where
the predicate disagrees with the stored flag instead. -/
def sampleStaleField : ValidatedFieldState :=
  { valid := false, yOffset := 100, measureYOffset := fun _ => 100,
    validateCallback := fun _ => true }

def sampleStaleState : ValidatorState :=
  { ready := true
    fields := [("a", sampleField true 300), ("b", sampleStaleField)] }

def sampleStaleCell : FormCell :=
  { state := sampleStaleState, stateBuffer := sampleStaleState,
    commitTimeoutPending := false }

theorem validateField_cases_witness :
    sampleStaleCell.stateBuffer = sampleStaleCell.state ∧
      List.lookup "b" sampleStaleCell.state.fields = some sampleStaleField ∧
      sampleStaleField.valid ≠ sampleStaleField.validateCallback () ∧
      (validateFieldWriteCount "b" sampleStaleCell = 1 ∧
        List.lookup "b"
            (commitTimeoutFire (validateFieldCell "b" sampleStaleCell)).state.fields =
          some { sampleStaleField with
                   valid := sampleStaleField.validateCallback () } ∧
        ∀ other, other ≠ "b" →
          List.lookup other
              (commitTimeoutFire (validateFieldCell "b" sampleStaleCell)).state.fields =
            List.lookup other sampleStaleCell.state.fields) :=
  ⟨rfl, rfl, by decide,
    (validateField_cases "b" sampleStaleCell rfl).2.2 sampleStaleField rfl (by decide)⟩

/-! ## Claim C10: validateForm writes a committed-state snapshot -/

theorem validateFieldsPass_fst_map (l : List (String × ValidatedFieldState)) :
    (validateFieldsPass l).2.map Prod.fst = l.map Prod.fst := by
  induction l with
  | nil => rfl
  | cons p rest ih =>
    by_cases h : p.2.validateCallback () = p.2.valid <;>
      simp [validateFieldsPass, h, ih]

/-- Claim C10: when `ready` is true, `validateForm`'s single write carries an
updater that ignores the buffered value entirely: the new buffer is the
snapshot computed from the committed state observed at call time (the
right-hand side mentions only `c.state`, never `c.stateBuffer`), the write is
issued even when no validity flag changed, and any name absent from the
committed snapshot — e.g. a field whose registration is still sitting in the
buffer — is absent from the written state. -/
theorem validateForm_snapshot_write (c : FormCell) (h : c.state.ready = true) :
    (validateFormCell c).2.stateBuffer = (validateForm c.state).2 ∧
      (validateFormCell c).2.state = c.state ∧
      (validateFormCell c).2.commitTimeoutPending = true ∧
      validateFormWriteCount c = 1 ∧
      (validateFormCell c).2.stateBuffer.fields.map Prod.fst =
        c.state.fields.map Prod.fst ∧
      ∀ n, List.lookup n c.state.fields = none →
        List.lookup n (validateFormCell c).2.stateBuffer.fields = none := by
  have hready : ¬ c.state.ready = false := by simp [h]
  refine ⟨?_, ?_, ?_, ?_, ?_, ?_⟩
  · simp [validateFormCell, hready, setState, applySetStateAction]
  · simp [validateFormCell, hready, setState]
  · simp [validateFormCell, hready, setState]
  · simp [validateFormWriteCount, hready]
  · simp [validateFormCell, hready, setState, applySetStateAction, validateForm,
      validateFieldsPass_fst_map]
  · intro n hn
    have hkeys : (validateFormCell c).2.stateBuffer.fields.map Prod.fst =
        c.state.fields.map Prod.fst := by
      simp [validateFormCell, hready, setState, applySetStateAction, validateForm,
        validateFieldsPass_fst_map]
    rw [lookup_eq_none_iff, hkeys]
    exact (lookup_eq_none_iff n c.state.fields).mp hn

/-- A cell whose buffer holds a registration ("d") that was never committed:
the claim says `validateForm` discards it. -/
def sampleDriftCell : FormCell :=
  { state := sampleState
    stateBuffer :=
      { sampleState with fields := sampleState.fields ++ [("d", sampleField true 500)] }
    commitTimeoutPending := true }

theorem validateForm_snapshot_write_witness :
    sampleDriftCell.state.ready = true ∧
      List.lookup "d" sampleDriftCell.state.fields = none ∧
      List.lookup "d" sampleDriftCell.stateBuffer.fields =
        some (sampleField true 500) ∧
      List.lookup "d" (validateFormCell sampleDriftCell).2.stateBuffer.fields = none :=
  ⟨rfl, rfl, rfl,
    (validateForm_snapshot_write sampleDriftCell rfl).2.2.2.2.2 "d" rfl⟩

/-! ## Claim C8: `ready` is monotonic

The events a form cell can experience: the one-shot mount effect that sets
`ready`, each registry callback, and the debounce timer firing. -/

inductive FormOp where
  | initReadyOp : FormOp
  | addFieldOp (name : String) (valid : Bool) (validateCallback : Unit → Bool)
      (mesaureYOffset : Unit → Int) : FormOp
  | removeFieldOp (name : String) : FormOp
  | updateFieldOffsetYOp (name : String) (yOffset : Int) : FormOp
  | validateFieldOp (name : String) : FormOp
  | validateFormOp : FormOp
  | resetValidationsOp : FormOp
  | commitTimeoutFireOp : FormOp

def applyFormOp : FormOp → FormCell → FormCell
  | .initReadyOp, c => initReadyCell c
  | .addFieldOp n v cb m, c => addFieldCell n v cb m c
  | .removeFieldOp n, c => removeFieldCell n c
  | .updateFieldOffsetYOp n y, c => updateFieldOffsetYCell n y c
  | .validateFieldOp n, c => validateFieldCell n c
  | .validateFormOp, c => (validateFormCell c).2
  | .resetValidationsOp, c => resetValidationsCell c
  | .commitTimeoutFireOp, c => commitTimeoutFire c

theorem applyFormOp_preserves_ready (op : FormOp) (c : FormCell)
    (hs : c.state.ready = true) (hb : c.stateBuffer.ready = true) :
    (applyFormOp op c).state.ready = true ∧
      (applyFormOp op c).stateBuffer.ready = true := by
  cases op with
  | initReadyOp =>
    simp [applyFormOp, initReadyCell, setState, applySetStateAction, hs]
  | addFieldOp n v cb m =>
    by_cases h : (List.lookup n c.state.fields).isSome <;>
      simp [applyFormOp, addFieldCell, setState, applySetStateAction, h, hs, hb]
  | removeFieldOp n =>
    simp [applyFormOp, removeFieldCell, setState, applySetStateAction, hs, hb]
  | updateFieldOffsetYOp n y =>
    simp [applyFormOp, updateFieldOffsetYCell, setState, applySetStateAction, hs, hb]
  | validateFieldOp n =>
    rcases hf : List.lookup n c.state.fields with _ | f
    · simp [applyFormOp, validateFieldCell, hf, hs, hb]
    · by_cases h : f.valid = f.validateCallback () <;>
        simp [applyFormOp, validateFieldCell, hf, h, setState, applySetStateAction,
          hs, hb]
  | validateFormOp =>
    have h : ¬ c.state.ready = false := by simp [hs]
    simp [applyFormOp, validateFormCell, h, setState, applySetStateAction,
      validateForm, hs]
  | resetValidationsOp =>
    simp [applyFormOp, resetValidationsCell, setState, applySetStateAction, hs, hb]
  | commitTimeoutFireOp =>
    by_cases h : c.commitTimeoutPending <;>
      simp [applyFormOp, commitTimeoutFire, h, hs, hb]

theorem applyFormOp_keeps_not_ready (op : FormOp) (c : FormCell)
    (hop : op ≠ FormOp.initReadyOp)
    (hs : c.state.ready = false) (hb : c.stateBuffer.ready = false) :
    (applyFormOp op c).state.ready = false ∧
      (applyFormOp op c).stateBuffer.ready = false := by
  cases op with
  | initReadyOp => exact absurd rfl hop
  | addFieldOp n v cb m =>
    by_cases h : (List.lookup n c.state.fields).isSome <;>
      simp [applyFormOp, addFieldCell, setState, applySetStateAction, h, hs, hb]
  | removeFieldOp n =>
    simp [applyFormOp, removeFieldCell, setState, applySetStateAction, hs, hb]
  | updateFieldOffsetYOp n y =>
    simp [applyFormOp, updateFieldOffsetYCell, setState, applySetStateAction, hs, hb]
  | validateFieldOp n =>
    rcases hf : List.lookup n c.state.fields with _ | f
    · simp [applyFormOp, validateFieldCell, hf, hs, hb]
    · by_cases h : f.valid = f.validateCallback () <;>
        simp [applyFormOp, validateFieldCell, hf, h, setState, applySetStateAction,
          hs, hb]
  | validateFormOp =>
    simp [applyFormOp, validateFormCell, hs, hb]
  | resetValidationsOp =>
    simp [applyFormOp, resetValidationsCell, setState, applySetStateAction, hs, hb]
  | commitTimeoutFireOp =>
    by_cases h : c.commitTimeoutPending <;>
      simp [applyFormOp, commitTimeoutFire, h, hs, hb]

/-- Claim C8: `ready` starts `false` (`DEFAULT_VALIDATOR_STATE`); the mount
effect is the only event that raises it (any sequence of non-`initReady`
events keeps a never-initialized cell's `ready` at `false`); the mount effect
sets the buffered `ready` to `true`; and once both the committed and buffered
`ready` are `true`, no sequence of registry operations or timer commits ever
reverts either — every reachable state after the initial commit has
`ready = true`. -/
theorem ready_monotonic :
    DEFAULT_VALIDATOR_STATE.ready = false ∧
      (∀ c : FormCell, (initReadyCell c).stateBuffer.ready = true) ∧
      (∀ (ops : List FormOp) (c : FormCell),
        (∀ op ∈ ops, op ≠ FormOp.initReadyOp) →
        c.state.ready = false → c.stateBuffer.ready = false →
        (ops.foldl (fun c op => applyFormOp op c) c).state.ready = false ∧
          (ops.foldl (fun c op => applyFormOp op c) c).stateBuffer.ready = false) ∧
      (∀ (ops : List FormOp) (c : FormCell),
        c.state.ready = true → c.stateBuffer.ready = true →
        (ops.foldl (fun c op => applyFormOp op c) c).state.ready = true ∧
          (ops.foldl (fun c op => applyFormOp op c) c).stateBuffer.ready = true) := by
  refine ⟨rfl, fun c => rfl, ?_, ?_⟩
  · intro ops
    induction ops with
    | nil => intro c _ hs hb; exact ⟨hs, hb⟩
    | cons op rest ih =>
      intro c hops hs hb
      have h := applyFormOp_keeps_not_ready op c (hops op (by simp)) hs hb
      exact ih (applyFormOp op c)
        (fun o ho => hops o (List.mem_cons_of_mem op ho)) h.1 h.2
  · intro ops
    induction ops with
    | nil => intro c hs hb; exact ⟨hs, hb⟩
    | cons op rest ih =>
      intro c hs hb
      have h := applyFormOp_preserves_ready op c hs hb
      exact ih (applyFormOp op c) h.1 h.2

/-- A concrete event trace for the C8 witness: mount effect, commit, then a
burst of registry activity; `ready` is `true` throughout the tail. -/
def sampleTrace : List FormOp :=
  [.addFieldOp "a" true (fun _ => true) (fun _ => 300),
   .validateFormOp, .commitTimeoutFireOp, .resetValidationsOp,
   .removeFieldOp "a", .commitTimeoutFireOp]

def sampleReadyCell : FormCell :=
  commitTimeoutFire (initReadyCell
    { state := DEFAULT_VALIDATOR_STATE, stateBuffer := DEFAULT_VALIDATOR_STATE,
      commitTimeoutPending := false })

theorem ready_monotonic_witness :
    sampleReadyCell.state.ready = true ∧
      sampleReadyCell.stateBuffer.ready = true ∧
      (sampleTrace.foldl (fun c op => applyFormOp op c) sampleReadyCell).state.ready
        = true :=
  ⟨rfl, rfl, (ready_monotonic.2.2.2 sampleTrace sampleReadyCell rfl rfl).1⟩

/-! ## Claim C2: the scroll coordinator (src/ValidatedForm.tsx lines 377–420)

`scrollToInvalidFields` scans `Object.entries(state.fields)` keeping the
lowest `yOffset` seen among invalid fields (strict `<`, so the first field
encountered wins a tie), then — if any invalid field was found — issues one
scroll command to `Math.max(offset - extraScrollHeight, 0)`.  We model the
issued command as an `Option Int`: `none` when no command is issued (this also
covers the unresolved-scroll-node early return, which issues no command
either), `some y` for a command targeting vertical position `y`. -/

/-- One iteration of the `forEach` scan: `shouldScrollToOffset` is `none`
until the first invalid field. -/
def scanStep (acc : Option Int) (p : String × ValidatedFieldState) : Option Int :=
  if p.2.valid then acc
  else
    match acc with
    | none => some p.2.yOffset
    | some o => if p.2.yOffset < o then some p.2.yOffset else acc

/-- The scroll command `scrollToInvalidFields` issues, given the committed
field map and the configured margin (`_internal_extraScrollHeight`). -/
def scrollToInvalidFields (fields : List (String × ValidatedFieldState))
    (extraScrollHeight : Int) : Option Int :=
  match fields.foldl scanStep none with
  | none => none
  | some o => some (max (o - extraScrollHeight) 0)

/-- The `yOffset`s of the invalid records, in encounter order (specification
vocabulary for claim C2). -/
def invalidOffsets (fields : List (String × ValidatedFieldState)) : List Int :=
  (fields.filter (fun p => !p.2.valid)).map (fun p => p.2.yOffset)

/-- Minimum of two optional values, `none` acting as the identity. -/
def optMin : Option Int → Option Int → Option Int
  | none, r => r
  | some a, none => some a
  | some a, some b => some (min a b)

theorem optMin_none_right (a : Option Int) : optMin a none = a := by
  cases a <;> rfl

theorem optMin_assoc (a b c : Option Int) :
    optMin (optMin a b) c = optMin a (optMin b c) := by
  cases a <;> cases b <;> cases c <;> simp [optMin, min_assoc]

theorem scanStep_eq (acc : Option Int) (p : String × ValidatedFieldState) :
    scanStep acc p =
      if p.2.valid then acc else optMin acc (some p.2.yOffset) := by
  by_cases hv : p.2.valid
  · simp [scanStep, hv]
  · cases acc with
    | none => simp [scanStep, optMin, hv]
    | some o =>
      by_cases hlt : p.2.yOffset < o
      · simp [scanStep, optMin, hv, hlt, min_eq_right (le_of_lt hlt), min_comm]
      · simp [scanStep, optMin, hv, hlt, min_eq_left (le_of_not_lt hlt)]

theorem foldl_min_cons (xs : List Int) (y z : Int) :
    List.foldl min (min y z) xs = min y (List.foldl min z xs) := by
  induction xs generalizing z with
  | nil => rfl
  | cons w ws ih =>
    simp only [List.foldl_cons, min_assoc, ih]

theorem min?_cons_optMin (xs : List Int) (y : Int) :
    (y :: xs).min? = optMin (some y) xs.min? := by
  cases xs with
  | nil => rfl
  | cons z zs => simp [List.min?, optMin, foldl_min_cons]

theorem foldl_scanStep (l : List (String × ValidatedFieldState))
    (acc : Option Int) :
    l.foldl scanStep acc = optMin acc (invalidOffsets l).min? := by
  induction l generalizing acc with
  | nil => simp [invalidOffsets, List.min?, optMin_none_right]
  | cons p rest ih =>
    by_cases hv : p.2.valid
    · simp [List.foldl_cons, scanStep_eq, hv, ih, invalidOffsets]
    · have hstep : scanStep acc p = optMin acc (some p.2.yOffset) := by
        rw [scanStep_eq, if_neg hv]
      have hinv : invalidOffsets (p :: rest) = p.2.yOffset :: invalidOffsets rest := by
        simp [invalidOffsets, List.filter_cons, hv]
      rw [List.foldl_cons, hstep, ih, hinv, min?_cons_optMin, ← optMin_assoc]

/-- Claim C2: the command `scrollToInvalidFields` issues is exactly the
smallest `yOffset` among the invalid records, shifted up by the margin and
clamped at zero (`min?` of the invalid offsets picks that smallest offset; the
strict `<` in the scan means ties keep the first record encountered, which
cannot change the minimum value); when every record is valid no command is
issued; and any issued target is nonnegative. -/
theorem scrollToInvalidFields_topmost
    (fields : List (String × ValidatedFieldState)) (extraScrollHeight : Int) :
    scrollToInvalidFields fields extraScrollHeight =
        (invalidOffsets fields).min?.map (fun o => max (o - extraScrollHeight) 0) ∧
      ((∀ p ∈ fields, p.2.valid = true) →
        scrollToInvalidFields fields extraScrollHeight = none) ∧
      ∀ t ∈ scrollToInvalidFields fields extraScrollHeight, 0 ≤ t := by
  have hfold : fields.foldl scanStep none = (invalidOffsets fields).min? := by
    simpa [optMin] using foldl_scanStep fields none
  refine ⟨?_, ?_, ?_⟩
  · rw [scrollToInvalidFields, hfold]
    cases (invalidOffsets fields).min? <;> rfl
  · intro hall
    have hnil : invalidOffsets fields = [] := by
      simp only [invalidOffsets, List.map_eq_nil_iff, List.filter_eq_nil_iff]
      intro p hp
      simp [hall p hp]
    rw [scrollToInvalidFields, hfold, hnil]
    rfl
  · intro t ht
    rw [scrollToInvalidFields, hfold] at ht
    cases hmin : (invalidOffsets fields).min? with
    | none => rw [hmin] at ht; simp at ht
    | some o =>
      rw [hmin] at ht
      simp only [Option.mem_def, Option.some_inj] at ht
      rw [← ht]
      exact le_max_right _ _

/-- The spec's worked example: `{a: invalid@300, b: invalid@100, c: valid@50}`
with margin `40` targets `max(100 - 40, 0) = 60`. -/
theorem scrollToInvalidFields_topmost_witness :
    (scrollToInvalidFields sampleInvalidState.fields 40 =
        (invalidOffsets sampleInvalidState.fields).min?.map
          (fun o => max (o - 40) 0)) ∧
      scrollToInvalidFields sampleInvalidState.fields 40 = some 60 :=
  ⟨(scrollToInvalidFields_topmost sampleInvalidState.fields 40).1, by decide⟩

/-! ## Claim C9: `isEmpty` (src/unnamed/part_000, the utils module)

JS values of the shapes `isEmpty` distinguishes: `undefined`, `null`, numbers,
booleans, `Date`s, strings, iterables (arrays), and plain objects.  Numbers
are modelled as `Int`; nothing in `isEmpty` depends on fractional values. -/

inductive JSValue where
  | undefined : JSValue
  | null : JSValue
  | num (n : Int) : JSValue
  | boolean (b : Bool) : JSValue
  | date : JSValue
  | str (s : String) : JSValue
  | arr (items : List JSValue) : JSValue
  | obj (props : List (String × JSValue)) : JSValue

/-- The function `isEmpty(object, ignoreFalsyValues = false)` from the utils module, branch
for branch: `undefined`/`null` → `true`; numbers, booleans and `Date`s →
`false` (this check comes *before* any falsy-value handling); a non-string
iterable is empty iff every element is; a plain object is empty iff every
own-property value is; anything else — in particular every string — reaches
`ignoreFalsyValues ? !object : false`, where `!object` is `true` exactly for
the empty string. -/
def isEmpty (object : JSValue) (ignoreFalsyValues : Bool) : Bool :=
  match object with
  | .undefined => true
  | .null => true
  | .num _ => false
  | .boolean _ => false
  | .date => false
  | .arr items => items.attach.all (fun item => isEmpty item.1 ignoreFalsyValues)
  | .obj props => props.attach.all (fun p => isEmpty p.1.2 ignoreFalsyValues)
  | .str s => if ignoreFalsyValues then s == "" else false
termination_by sizeOf object
decreasing_by
  · have h := List.sizeOf_lt_of_mem item.2
    simp only [JSValue.arr.sizeOf_spec]
    omega
  · have h := List.sizeOf_lt_of_mem p.2
    have h2 : sizeOf p.1.2 < sizeOf p.1 := by
      obtain ⟨⟨a, b⟩, _⟩ := p
      simp
    simp only [JSValue.obj.sizeOf_spec]
    omega

/-- Claim C9 counterexample: the claim says the empty string is classified as
empty, and that whether zero and `false` count as empty is controlled by the
`ignoreFalsyValues` flag.  In the code, `isEmpty("")` with the default flag is
`false` (not empty), and `isEmpty(0)` / `isEmpty(false)` are `false` under
*both* flag values — the flag controls neither. -/
theorem isEmpty_claim_counterexample :
    isEmpty (JSValue.str "") false = false ∧
      isEmpty (JSValue.num 0) false = false ∧
      isEmpty (JSValue.num 0) true = false ∧
      isEmpty (JSValue.boolean false) false = false ∧
      isEmpty (JSValue.boolean false) true = false := by
  refine ⟨?_, ?_, ?_, ?_, ?_⟩ <;> simp [isEmpty]

/-- Claim C9 as amended: `null`, `undefined` and empty collections are empty;
numbers (zero included), booleans (`false` included) and dates are never
empty, whatever the flag; no string is empty when `ignoreFalsyValues` is
false, and with the flag set exactly the empty string is empty — so the
non-empty string "0" is never empty. -/
theorem isEmpty_semantics :
    (∀ flag, isEmpty JSValue.null flag = true) ∧
      (∀ flag, isEmpty JSValue.undefined flag = true) ∧
      (∀ flag, isEmpty (JSValue.arr []) flag = true) ∧
      (∀ flag, isEmpty (JSValue.obj []) flag = true) ∧
      (∀ n flag, isEmpty (JSValue.num n) flag = false) ∧
      (∀ b flag, isEmpty (JSValue.boolean b) flag = false) ∧
      (∀ flag, isEmpty JSValue.date flag = false) ∧
      isEmpty (JSValue.str "") true = true ∧
      (∀ s, isEmpty (JSValue.str s) false = false) ∧
      (∀ s flag, s ≠ "" → isEmpty (JSValue.str s) flag = false) := by
  refine ⟨?_, ?_, ?_, ?_, ?_, ?_, ?_, ?_, ?_, ?_⟩
  · intro flag; simp [isEmpty]
  · intro flag; simp [isEmpty]
  · intro flag; simp [isEmpty]
  · intro flag; simp [isEmpty]
  · intro n flag; simp [isEmpty]
  · intro b flag; simp [isEmpty]
  · intro flag; simp [isEmpty]
  · simp [isEmpty]
  · intro s; simp [isEmpty]
  · intro s flag hs
    cases flag <;> simp [isEmpty, beq_iff_eq, hs]

theorem isEmpty_semantics_witness :
    ("0" : String) ≠ "" ∧ isEmpty (JSValue.str "0") true = false :=
  ⟨by decide, isEmpty_semantics.2.2.2.2.2.2.2.2.2 "0" true (by decide)⟩

/-- A concrete three-write burst for the C4 witness. -/
def sampleBurst : List (SetStateAction Int) :=
  [.value 1, .value 2, .updater (fun v => v + 10)]

theorem useBufferedState_coalesces_witness :
    sampleBurst ≠ [] ∧
      (setStateBurst sampleBurst ⟨0, 0, false⟩).state = (0 : Int) ∧
      (commitTimeoutFire (setStateBurst sampleBurst ⟨0, 0, false⟩)).state = (12 : Int) := by
  refine ⟨by simp [sampleBurst], ?_⟩
  have h := useBufferedState_coalesces sampleBurst ⟨0, 0, false⟩ (by simp [sampleBurst])
  exact ⟨h.1, by rw [h.2]; rfl⟩
